import Mathlib

/-
Verification of the MiniMC process supervisor and log broadcast subsystem.

The Go sources embedded here:
  * package pkg, log hub (src/unnamed/part_002, second file): Subscribe,
    GetSessionLogs, sessionWriter.Write over the globals sessionLogs and
    subscribers (all guarded by sessionMu, so operations are serialized).
  * package server (src/pkg/server/server.go): Start, Stop, Kill,
    RunCommand, GetStatus over the global activeServer (guarded by
    serverMu), plus the per-Server stdin channel, the stdin writer
    goroutine and the exit-watcher goroutine.

Go buffered channels are modelled as lists with an explicit capacity:
a non-blocking send (select with default) appends when the length is
below capacity and drops otherwise; a plain send succeeds immediately
when the length is below capacity and blocks otherwise.
-/

set_option autoImplicit false

namespace MiniMC

namespace pkg

/-- Capacity of each subscriber channel: `make(chan string, 100)` in Subscribe. -/
def chanCap : Nat := 100

/-- State of the log hub: the globals of package pkg.  `sessionLogs` is the
append-only history; each subscriber channel is modelled by the list of
lines currently buffered in it (most recent last). -/
structure Hub where
  sessionLogs : List String
  subscribers : List (List String)
deriving Repr, DecidableEq

/-- Initial state of the globals: empty history, no subscribers. -/
def hubInit : Hub := ⟨[], []⟩

/-- Go: `select { case sub <- msg: default: }` on a buffered channel whose
receiver is not currently waiting: deliver iff the buffer has room. -/
def trySend (buf : List String) (msg : String) : List String :=
  if buf.length < chanCap then buf ++ [msg] else buf

/-- Go `Subscribe`: create a channel with buffer 100, append it to
`subscribers`, return it.  The returned Nat is the index identifying the
new channel. -/
def Subscribe (h : Hub) : Hub × Nat :=
  ({ h with subscribers := h.subscribers ++ [[]] }, h.subscribers.length)

/-- Go `GetSessionLogs`: a copy of `sessionLogs` (copying is the identity
in a pure model). -/
def GetSessionLogs (h : Hub) : List String :=
  h.sessionLogs

/-- Go `sessionWriter.Write`: under `sessionMu`, append the message to
`sessionLogs` and offer it to every subscriber with a non-blocking send. -/
def Write (h : Hub) (msg : String) : Hub :=
  { sessionLogs := h.sessionLogs ++ [msg],
    subscribers := h.subscribers.map (fun sub => trySend sub msg) }

/-- Sequence of writes (each write is one atomic critical section). -/
def WriteAll (h : Hub) (msgs : List String) : Hub :=
  msgs.foldl Write h

/-- Buffer of the subscriber channel at index `i` (empty list if out of range). -/
def subBuf (h : Hub) (i : Nat) : List String :=
  h.subscribers.getD i []

/-- Operations callable on the hub (each runs under `sessionMu`). -/
inductive HubOp where
  | sub
  | write (msg : String)
deriving Repr, DecidableEq

def hubStep (h : Hub) : HubOp → Hub
  | .sub => (Subscribe h).1
  | .write msg => Write h msg

def runHubOps (h : Hub) (ops : List HubOp) : Hub :=
  ops.foldl hubStep h

end pkg

namespace server

/-- Capacity of the per-server command queue: `make(chan string, 100)` in Start. -/
def stdinCap : Nat := 100

/-- Errors returned by the package-level operations.  `alreadyRunning` is
ErrServerExists ("a server is already running"), `notRunning` is the
"server is not running" error, `launchFailure` stands for the raw error
returned from the pipe constructors or `cmd.Start()`. -/
inductive SErr where
  | alreadyRunning
  | notRunning
  | launchFailure
deriving Repr, DecidableEq

/-- One Server value.  `stdin` is the buffered command channel (pending
lines, oldest first); `isRunning` the flag guarded by `s.mu`; `written`
records the bytes the stdin-writer goroutine has written to the child's
stdin pipe so far (model of `stdinPipe.Write([]byte(cmd + "\n"))`). -/
structure Server where
  stdin : List String
  isRunning : Bool
  written : String
deriving Repr, DecidableEq

/-- The Server value built in Start: fresh channels, not yet running. -/
def freshServer : Server := ⟨[], false, ""⟩

/-- Global state of package server: every Server value ever created
(identified by its index, so pointer equality is index equality) and the
`activeServer` pointer. -/
structure Sys where
  servers : List Server
  active : Option Nat
deriving Repr, DecidableEq

/-- State at program startup: no Server created, `activeServer = nil`. -/
def sysInit : Sys := ⟨[], none⟩

def Sys.getServer (sys : Sys) (i : Nat) : Server :=
  sys.servers.getD i freshServer

def Sys.setServer (sys : Sys) (i : Nat) (s : Server) : Sys :=
  ⟨sys.servers.set i s, sys.active⟩

/-- Go package-level `GetStatus`: false when `activeServer == nil`, else
the active server's `isRunning` flag. -/
def GetStatus (sys : Sys) : Bool :=
  match sys.active with
  | none => false
  | some i => (sys.getServer i).isRunning

/-- Go `Start` together with the synchronous part of `startInternal`,
executed under `serverMu`.  `launchOk` is the environment: whether the
three pipe constructors and `cmd.Start()` all succeed.  The code first
registers the fresh Server as `activeServer`, then launches; on launch
failure it returns the error with the registration still in place.  The
racy cleanup goroutine spawned at the top of `startInternal` is
asynchronous and not guaranteed to run (it returns at once when it
observes `s.cmd == nil`), so it is not part of this atomic step. -/
def Start (launchOk : Bool) (sys : Sys) : Except SErr Unit × Sys :=
  if GetStatus sys then
    (.error .alreadyRunning, sys)
  else
    let i := sys.servers.length
    if launchOk then
      (.ok (), ⟨sys.servers ++ [⟨[], true, ""⟩], some i⟩)
    else
      (.error .launchFailure, ⟨sys.servers ++ [⟨[], false, ""⟩], some i⟩)

/-- Result of a package-level operation: a new state, an error, or the
calling goroutine blocking (channel send on a full buffer). -/
inductive OpResult where
  | ok (sys : Sys)
  | err (e : SErr)
  | blocked
deriving Repr, DecidableEq

/-- Go send on the buffered stdin channel (`s.stdin <- cmd`): immediate
iff the buffer is below capacity, otherwise the caller blocks. -/
def sendStdin (q : List String) (line : String) : Option (List String) :=
  if q.length < stdinCap then some (q ++ [line]) else none

/-- Go package-level `RunCommand`: under `serverMu`, fail with NotRunning
when `activeServer == nil || !activeServer.GetStatus()`, else
`(*Server).RunCommand` re-checks the status and sends on `s.stdin`. -/
def RunCommand (line : String) (sys : Sys) : OpResult :=
  match sys.active with
  | none => .err .notRunning
  | some i =>
    let s := sys.getServer i
    if s.isRunning then
      match sendStdin s.stdin line with
      | some q => .ok (sys.setServer i { s with stdin := q })
      | none => .blocked
    else .err .notRunning

/-- Go package-level `Stop`: the NotRunning guard, then
`activeServer.RunCommand("stop")`. -/
def Stop (sys : Sys) : OpResult :=
  match sys.active with
  | none => .err .notRunning
  | some i =>
    if (sys.getServer i).isRunning then RunCommand "stop" sys
    else .err .notRunning

/-- Go package-level `Kill`: the NotRunning guard, then `(*Server).Kill`,
which re-checks `isRunning` and calls `cmd.Process.Kill()`.  Killing the
OS process changes no supervisor state: `isRunning` and `activeServer`
are only updated later by the exit watcher. -/
def Kill (sys : Sys) : OpResult :=
  match sys.active with
  | none => .err .notRunning
  | some i =>
    if (sys.getServer i).isRunning then .ok sys
    else .err .notRunning

/-- Exit watcher for server `i` (the goroutine at the end of
`startInternal`): when `cmd.Wait()` returns — once, when the process
terminates for any reason — it sets `isRunning = false` and clears
`activeServer`.  Modelled as one atomic event enabled while the server
is still marked running. -/
def exitServer (sys : Sys) (i : Nat) : Sys :=
  if (sys.getServer i).isRunning then
    ⟨sys.servers.set i { sys.getServer i with isRunning := false }, none⟩
  else sys

/-- One step of the stdin-writer goroutine
(`for cmd := range s.stdin { stdinPipe.Write([]byte(cmd + "\n")) }`):
receive the oldest pending line and write it with a newline appended. -/
def drainStep (s : Server) : Server :=
  match s.stdin with
  | [] => s
  | c :: rest => { s with stdin := rest, written := s.written ++ c ++ "\n" }

/-- Run the stdin writer for `n` receive/write iterations. -/
def drainN : Nat → Server → Server
  | 0, s => s
  | n + 1, s => drainN n (drainStep s)

/-- Events of the whole package: the public operations (each serialized
under `serverMu`), a writer step for server `i`, and the exit of server
`i` observed by its watcher.  An operation that returns an error, or
blocks, leaves the state unchanged. -/
inductive Op where
  | opStart (launchOk : Bool)
  | opStop
  | opKill
  | opRun (line : String)
  | opExit (i : Nat)
  | opDrain (i : Nat)
deriving Repr, DecidableEq

def applyResult (sys : Sys) : OpResult → Sys
  | .ok sys2 => sys2
  | .err _ => sys
  | .blocked => sys

def stepOp (sys : Sys) : Op → Sys
  | .opStart launchOk => (Start launchOk sys).2
  | .opStop => applyResult sys (Stop sys)
  | .opKill => applyResult sys (Kill sys)
  | .opRun line => applyResult sys (RunCommand line sys)
  | .opExit i => exitServer sys i
  | .opDrain i => sys.setServer i (drainStep (sys.getServer i))

def runOps (sys : Sys) (ops : List Op) : Sys :=
  ops.foldl stepOp sys

/-- N successive Start attempts (each atomic under `serverMu`, all with a
succeeding launch environment), collecting the results. -/
def startN : Nat → Sys → List (Except SErr Unit) × Sys
  | 0, sys => ([], sys)
  | n + 1, sys =>
    let r := Start true sys
    let rest := startN n r.2
    (r.1 :: rest.1, rest.2)

/-- Registry invariant: a running server is the registered one. -/
def Inv (sys : Sys) : Prop :=
  ∀ i, i < sys.servers.length → (sys.getServer i).isRunning = true →
    sys.active = some i

/-- Queue bound: no command queue ever holds more than its capacity. -/
def QBound (sys : Sys) : Prop :=
  ∀ i, (sys.getServer i).stdin.length ≤ stdinCap

/-- Singleton property: at most one Server is running process-wide. -/
def atMostOneRunning (sys : Sys) : Prop :=
  ∀ i j, i < sys.servers.length → j < sys.servers.length →
    (sys.getServer i).isRunning = true → (sys.getServer j).isRunning = true →
    i = j

/-- Process-level termination events after a successful Start: a Kill
call, an external kill or a crash of the child (which change no
supervisor state by themselves), and the exit watcher firing for the
active server. -/
inductive PEv where
  | killCall
  | externalKill
  | crash
  | watcherFires
deriving Repr, DecidableEq

def stepEv (sys : Sys) : PEv → Sys
  | .killCall => applyResult sys (Kill sys)
  | .externalKill => sys
  | .crash => sys
  | .watcherFires =>
    match sys.active with
    | some i => exitServer sys i
    | none => sys

def runEvs (sys : Sys) (evs : List PEv) : Sys :=
  evs.foldl stepEv sys

/-- Sequence of RunCommand calls (a call that fails or blocks changes
nothing). -/
def runAll (cmds : List String) (sys : Sys) : Sys :=
  cmds.foldl (fun acc line => applyResult acc (RunCommand line acc)) sys

/-- Byte stream the spec expects on the child's stdin for a given
enqueue order: each line followed by a single newline, in order. -/
def joinLines : List String → String
  | [] => ""
  | c :: rest => c ++ "\n" ++ joinLines rest

/-- Concrete state: one running server whose command queue is full. -/
def sysFull : Sys := ⟨[⟨List.replicate stdinCap "x", true, ""⟩], some 0⟩

/-- Concrete state: one running server with an empty command queue. -/
def sysRun1 : Sys := ⟨[⟨[], true, ""⟩], some 0⟩

end server

namespace pkg

theorem Write_sessionLogs (h : Hub) (msg : String) :
    (Write h msg).sessionLogs = h.sessionLogs ++ [msg] := rfl

theorem Write_subscribers_length (h : Hub) (msg : String) :
    (Write h msg).subscribers.length = h.subscribers.length := by
  simp [Write]

theorem subBuf_Write (h : Hub) (msg : String) (i : Nat)
    (hi : i < h.subscribers.length) :
    subBuf (Write h msg) i = trySend (subBuf h i) msg := by
  simp [subBuf, Write, List.getD_eq_getElem?_getD, List.getElem?_map,
    List.getElem?_eq_getElem hi]

theorem subBuf_of_ge (h : Hub) (i : Nat) (hi : h.subscribers.length ≤ i) :
    subBuf h i = [] := by
  unfold subBuf
  rw [List.getD_eq_getElem?_getD, List.getElem?_eq_none hi]
  rfl

theorem subBuf_Subscribe (h : Hub) (i : Nat) :
    subBuf (Subscribe h).1 i =
      if i < h.subscribers.length then subBuf h i else [] := by
  by_cases hi : i < h.subscribers.length
  · simp only [hi, if_pos]
    simp [Subscribe, subBuf, List.getD_eq_getElem?_getD,
      List.getElem?_append_left hi]
  · simp only [hi, if_neg, Bool.false_eq_true, not_false_iff]
    by_cases he : i = h.subscribers.length
    · subst he
      simp [Subscribe, subBuf, List.getD_append_right]
    · apply subBuf_of_ge
      simp [Subscribe]
      omega

theorem WriteAll_cons (h : Hub) (m : String) (ms : List String) :
    WriteAll h (m :: ms) = WriteAll (Write h m) ms := rfl

theorem WriteAll_sessionLogs (msgs : List String) : ∀ h : Hub,
    (WriteAll h msgs).sessionLogs = h.sessionLogs ++ msgs := by
  induction msgs with
  | nil => intro h; simp [WriteAll]
  | cons m ms ih =>
    intro h
    rw [WriteAll_cons, ih, Write_sessionLogs]
    simp

theorem WriteAll_subscribers_length (msgs : List String) : ∀ h : Hub,
    (WriteAll h msgs).subscribers.length = h.subscribers.length := by
  induction msgs with
  | nil => intro h; simp [WriteAll]
  | cons m ms ih =>
    intro h
    rw [WriteAll_cons, ih, Write_subscribers_length]

theorem subBuf_WriteAll (msgs : List String) : ∀ (h : Hub) (i : Nat),
    i < h.subscribers.length →
    (subBuf h i).length + msgs.length ≤ chanCap →
    subBuf (WriteAll h msgs) i = subBuf h i ++ msgs := by
  induction msgs with
  | nil => intro h i _ _; simp [WriteAll]
  | cons m ms ih =>
    intro h i hi hlen
    rw [WriteAll_cons]
    have h1 : subBuf (Write h m) i = subBuf h i ++ [m] := by
      rw [subBuf_Write h m i hi]
      unfold trySend
      rw [if_pos]
      simp at hlen
      omega
    rw [ih (Write h m) i (by rw [Write_subscribers_length]; exact hi)
      (by rw [h1]; simp at hlen ⊢; omega), h1]
    simp

theorem subBuf_WriteAll_full (msgs : List String) : ∀ (h : Hub) (i : Nat),
    i < h.subscribers.length →
    chanCap ≤ (subBuf h i).length →
    subBuf (WriteAll h msgs) i = subBuf h i := by
  induction msgs with
  | nil => intro h i _ _; simp [WriteAll]
  | cons m ms ih =>
    intro h i hi hlen
    rw [WriteAll_cons]
    have h1 : subBuf (Write h m) i = subBuf h i := by
      rw [subBuf_Write h m i hi]
      unfold trySend
      rw [if_neg]
      omega
    rw [ih (Write h m) i (by rw [Write_subscribers_length]; exact hi)
      (by rw [h1]; exact hlen), h1]

theorem trySend_length_le (buf : List String) (msg : String)
    (hb : buf.length ≤ chanCap) : (trySend buf msg).length ≤ chanCap := by
  unfold trySend
  split
  · simp; omega
  · exact hb

theorem subBuf_length_le (ops : List HubOp) : ∀ h : Hub,
    (∀ i, (subBuf h i).length ≤ chanCap) →
    ∀ i, (subBuf (runHubOps h ops) i).length ≤ chanCap := by
  induction ops with
  | nil => intro h hh i; exact hh i
  | cons op rest ih =>
    intro h hh i
    have hstep : ∀ j, (subBuf (hubStep h op) j).length ≤ chanCap := by
      intro j
      cases op with
      | sub =>
        show (subBuf (Subscribe h).1 j).length ≤ chanCap
        rw [subBuf_Subscribe]
        split
        · exact hh j
        · simp [chanCap]
      | write msg =>
        show (subBuf (Write h msg) j).length ≤ chanCap
        by_cases hj : j < h.subscribers.length
        · rw [subBuf_Write h msg j hj]
          exact trySend_length_le _ _ (hh j)
        · rw [subBuf_of_ge]
          · simp [chanCap]
          · rw [Write_subscribers_length]; omega
    exact ih (hubStep h op) hstep i

theorem hubStep_subscribers_length (h : Hub) (op : HubOp) :
    (hubStep h op).subscribers.length =
      h.subscribers.length + (if op = HubOp.sub then 1 else 0) := by
  cases op with
  | sub => simp [hubStep, Subscribe]
  | write msg => simp [hubStep, Write_subscribers_length]

theorem runHubOps_subscribers_length (ops : List HubOp) : ∀ h : Hub,
    (runHubOps h ops).subscribers.length =
      h.subscribers.length +
        (ops.filter (fun op => op = HubOp.sub)).length := by
  induction ops with
  | nil => intro h; simp [runHubOps]
  | cons op rest ih =>
    intro h
    show (runHubOps (hubStep h op) rest).subscribers.length = _
    rw [ih, hubStep_subscribers_length]
    by_cases hop : op = HubOp.sub
    · subst hop; simp [List.filter]; omega
    · simp [List.filter, hop]

end pkg

namespace server

theorem GetStatus_some (sys : Sys) (i : Nat) (h : sys.active = some i) :
    GetStatus sys = (sys.getServer i).isRunning := by
  unfold GetStatus
  rw [h]

theorem getServer_of_ge (sys : Sys) (i : Nat) (hi : sys.servers.length ≤ i) :
    sys.getServer i = freshServer := by
  unfold Sys.getServer
  rw [List.getD_eq_getElem?_getD, List.getElem?_eq_none hi]
  rfl

theorem lt_of_running (sys : Sys) (i : Nat)
    (h : (sys.getServer i).isRunning = true) : i < sys.servers.length := by
  by_contra hc
  rw [getServer_of_ge sys i (by omega)] at h
  simp [freshServer] at h

theorem setServer_active (sys : Sys) (i : Nat) (s : Server) :
    (sys.setServer i s).active = sys.active := rfl

theorem setServer_length (sys : Sys) (i : Nat) (s : Server) :
    (sys.setServer i s).servers.length = sys.servers.length := by
  simp [Sys.setServer]

theorem getServer_set_self (sys : Sys) (i : Nat) (s : Server)
    (hi : i < sys.servers.length) : (sys.setServer i s).getServer i = s := by
  unfold Sys.setServer Sys.getServer
  simp [List.getD_eq_getElem?_getD, List.getElem?_set, hi]

theorem getServer_set_other (sys : Sys) (i j : Nat) (s : Server)
    (hij : i ≠ j) : (sys.setServer i s).getServer j = sys.getServer j := by
  unfold Sys.setServer Sys.getServer
  simp [List.getD_eq_getElem?_getD, List.getElem?_set, hij]

theorem setServer_setServer (sys : Sys) (i : Nat) (s1 s2 : Server) :
    (sys.setServer i s1).setServer i s2 = sys.setServer i s2 := by
  unfold Sys.setServer
  simp [List.set_set]

theorem getServer_append_lt (l : List Server) (s : Server) (ac : Option Nat)
    (j : Nat) (hj : j < l.length) :
    (Sys.mk (l ++ [s]) ac).getServer j = (Sys.mk l ac).getServer j := by
  unfold Sys.getServer
  simp [List.getD_eq_getElem?_getD, List.getElem?_append_left hj]

theorem getServer_append_self (l : List Server) (s : Server)
    (ac : Option Nat) : (Sys.mk (l ++ [s]) ac).getServer l.length = s := by
  unfold Sys.getServer
  simp [List.getD_append_right]

theorem Start_of_running (launchOk : Bool) (sys : Sys)
    (h : GetStatus sys = true) :
    Start launchOk sys = (.error .alreadyRunning, sys) := by
  simp [Start, h]

theorem Start_ok (sys : Sys) (h : GetStatus sys = false) :
    Start true sys =
      (.ok (), ⟨sys.servers ++ [⟨[], true, ""⟩], some sys.servers.length⟩) := by
  simp [Start, h]

theorem Start_fail (sys : Sys) (h : GetStatus sys = false) :
    Start false sys =
      (.error .launchFailure,
        ⟨sys.servers ++ [⟨[], false, ""⟩], some sys.servers.length⟩) := by
  simp [Start, h]

theorem GetStatus_startOk (sys : Sys) (h : GetStatus sys = false) :
    GetStatus (Start true sys).2 = true := by
  rw [Start_ok sys h]
  show GetStatus ⟨sys.servers ++ [⟨[], true, ""⟩], some sys.servers.length⟩ = true
  rw [GetStatus_some _ sys.servers.length rfl, getServer_append_self]

theorem startN_running (n : Nat) : ∀ sys : Sys, GetStatus sys = true →
    startN n sys = (List.replicate n (Except.error SErr.alreadyRunning), sys) := by
  induction n with
  | zero => intro sys _; simp [startN]
  | succ n ih =>
    intro sys h
    unfold startN
    rw [Start_of_running true sys h]
    show (Except.error SErr.alreadyRunning :: (startN n sys).1, (startN n sys).2) = _
    rw [ih sys h]
    simp [List.replicate_succ]

theorem startN_wins (n : Nat) (sys : Sys) (h : GetStatus sys = false) :
    startN (n + 1) sys =
      (Except.ok () :: List.replicate n (Except.error SErr.alreadyRunning),
        ⟨sys.servers ++ [⟨[], true, ""⟩], some sys.servers.length⟩) := by
  unfold startN
  rw [Start_ok sys h]
  show (Except.ok () :: (startN n (⟨sys.servers ++ [⟨[], true, ""⟩], some sys.servers.length⟩ : Sys)).1,
      (startN n (⟨sys.servers ++ [⟨[], true, ""⟩], some sys.servers.length⟩ : Sys)).2) = _
  have h2 : GetStatus (⟨sys.servers ++ [⟨[], true, ""⟩], some sys.servers.length⟩ : Sys) = true := by
    have := GetStatus_startOk sys h
    rwa [Start_ok sys h] at this
  rw [startN_running n _ h2]

theorem RunCommand_ok (sys : Sys) (i : Nat) (line : String)
    (ha : sys.active = some i)
    (hr : (sys.getServer i).isRunning = true)
    (hq : (sys.getServer i).stdin.length < stdinCap) :
    RunCommand line sys =
      .ok (sys.setServer i
        { sys.getServer i with stdin := (sys.getServer i).stdin ++ [line] }) := by
  unfold RunCommand
  rw [ha]
  simp [hr, sendStdin, hq]

theorem RunCommand_blocked (sys : Sys) (i : Nat) (line : String)
    (ha : sys.active = some i)
    (hr : (sys.getServer i).isRunning = true)
    (hq : ¬ (sys.getServer i).stdin.length < stdinCap) :
    RunCommand line sys = .blocked := by
  unfold RunCommand
  rw [ha]
  simp [hr, sendStdin, hq]

theorem RunCommand_notRunning (sys : Sys) (line : String)
    (h : GetStatus sys = false) :
    RunCommand line sys = .err .notRunning := by
  unfold RunCommand
  cases ha : sys.active with
  | none => rfl
  | some i =>
    rw [GetStatus_some sys i ha] at h
    simp [h]

theorem Stop_notRunning (sys : Sys) (h : GetStatus sys = false) :
    Stop sys = .err .notRunning := by
  unfold Stop
  cases ha : sys.active with
  | none => rfl
  | some i =>
    rw [GetStatus_some sys i ha] at h
    simp [h]

theorem Kill_notRunning (sys : Sys) (h : GetStatus sys = false) :
    Kill sys = .err .notRunning := by
  unfold Kill
  cases ha : sys.active with
  | none => rfl
  | some i =>
    rw [GetStatus_some sys i ha] at h
    simp [h]

theorem Kill_running (sys : Sys) (i : Nat) (ha : sys.active = some i)
    (hr : (sys.getServer i).isRunning = true) : Kill sys = .ok sys := by
  unfold Kill
  rw [ha]
  simp [hr]

theorem Stop_running (sys : Sys) (i : Nat) (ha : sys.active = some i)
    (hr : (sys.getServer i).isRunning = true) :
    Stop sys = RunCommand "stop" sys := by
  unfold Stop
  rw [ha]
  simp [hr]

theorem Inv_setServer (sys : Sys) (i : Nat) (s : Server) (hInv : Inv sys)
    (hrun : s.isRunning = (sys.getServer i).isRunning) :
    Inv (sys.setServer i s) := by
  intro j hj hjrun
  rw [setServer_length] at hj
  rw [setServer_active]
  by_cases hij : i = j
  · subst hij
    rw [getServer_set_self sys i s hj] at hjrun
    exact hInv i hj (by rw [← hrun]; exact hjrun)
  · rw [getServer_set_other sys i j s hij] at hjrun
    exact hInv j hj hjrun

theorem Inv_applyResult_RunCommand (line : String) (sys : Sys)
    (hInv : Inv sys) : Inv (applyResult sys (RunCommand line sys)) := by
  cases ha : sys.active with
  | none =>
    rw [RunCommand_notRunning sys line (by unfold GetStatus; rw [ha])]
    exact hInv
  | some i =>
    by_cases hr : (sys.getServer i).isRunning = true
    · by_cases hq : (sys.getServer i).stdin.length < stdinCap
      · rw [RunCommand_ok sys i line ha hr hq]
        exact Inv_setServer sys i _ hInv rfl
      · rw [RunCommand_blocked sys i line ha hr hq]
        exact hInv
    · rw [RunCommand_notRunning sys line
        (by rw [GetStatus_some sys i ha]; simpa using hr)]
      exact hInv

theorem Inv_applyResult_Stop (sys : Sys) (hInv : Inv sys) :
    Inv (applyResult sys (Stop sys)) := by
  cases ha : sys.active with
  | none =>
    rw [Stop_notRunning sys (by unfold GetStatus; rw [ha])]
    exact hInv
  | some i =>
    by_cases hr : (sys.getServer i).isRunning = true
    · rw [Stop_running sys i ha hr]
      exact Inv_applyResult_RunCommand "stop" sys hInv
    · rw [Stop_notRunning sys
        (by rw [GetStatus_some sys i ha]; simpa using hr)]
      exact hInv

theorem Inv_applyResult_Kill (sys : Sys) (hInv : Inv sys) :
    Inv (applyResult sys (Kill sys)) := by
  cases ha : sys.active with
  | none =>
    rw [Kill_notRunning sys (by unfold GetStatus; rw [ha])]
    exact hInv
  | some i =>
    by_cases hr : (sys.getServer i).isRunning = true
    · rw [Kill_running sys i ha hr]
      exact hInv
    · rw [Kill_notRunning sys
        (by rw [GetStatus_some sys i ha]; simpa using hr)]
      exact hInv

theorem Inv_Start (launchOk : Bool) (sys : Sys) (hInv : Inv sys) :
    Inv (Start launchOk sys).2 := by
  by_cases hs : GetStatus sys = true
  · rw [Start_of_running launchOk sys hs]
    exact hInv
  · have hs2 : GetStatus sys = false := by simpa using hs
    have hold : ∀ j, j < sys.servers.length →
        (sys.getServer j).isRunning = true → False := by
      intro j hj hjr
      have := hInv j hj hjr
      rw [GetStatus_some sys j this, hjr] at hs2
      exact absurd hs2 (by simp)
    cases launchOk with
    | true =>
      rw [Start_ok sys hs2]
      intro j hj hjr
      simp only [List.length_append, List.length_singleton] at hj
      by_cases hje : j = sys.servers.length
      · subst hje
        rfl
      · have hjlt : j < sys.servers.length := by omega
        rw [getServer_append_lt sys.servers _ _ j hjlt] at hjr
        exact (hold j hjlt hjr).elim
    | false =>
      rw [Start_fail sys hs2]
      intro j hj hjr
      simp only [List.length_append, List.length_singleton] at hj
      by_cases hje : j = sys.servers.length
      · subst hje
        rw [getServer_append_self] at hjr
      · have hjlt : j < sys.servers.length := by omega
        rw [getServer_append_lt sys.servers _ _ j hjlt] at hjr
        exact (hold j hjlt hjr).elim

theorem Inv_exitServer (sys : Sys) (i : Nat) (hInv : Inv sys) :
    Inv (exitServer sys i) := by
  unfold exitServer
  by_cases hr : (sys.getServer i).isRunning = true
  · simp only [hr, if_pos]
    intro j hj hjr
    exfalso
    have hilt : i < sys.servers.length := lt_of_running sys i hr
    simp only [List.length_set] at hj
    have hget : (Sys.mk (sys.servers.set i { sys.getServer i with isRunning := false })
        none).getServer j =
        (sys.setServer i { sys.getServer i with isRunning := false }).getServer j := rfl
    rw [hget] at hjr
    by_cases hij : i = j
    · subst hij
      rw [getServer_set_self sys i _ hilt] at hjr
      simp at hjr
    · rw [getServer_set_other sys i j _ hij] at hjr
      have h1 := hInv j hj hjr
      have h2 := hInv i hilt hr
      rw [h1] at h2
      exact hij (Option.some.inj h2).symm
  · simp only [hr, if_neg, Bool.false_eq_true, not_false_iff]
    exact hInv

theorem Inv_stepOp (sys : Sys) (op : Op) (hInv : Inv sys) :
    Inv (stepOp sys op) := by
  cases op with
  | opStart launchOk => exact Inv_Start launchOk sys hInv
  | opStop => exact Inv_applyResult_Stop sys hInv
  | opKill => exact Inv_applyResult_Kill sys hInv
  | opRun line => exact Inv_applyResult_RunCommand line sys hInv
  | opExit i => exact Inv_exitServer sys i hInv
  | opDrain i =>
    refine Inv_setServer sys i (drainStep (sys.getServer i)) hInv ?_
    unfold drainStep
    cases (sys.getServer i).stdin <;> rfl

theorem Inv_runOps (ops : List Op) : ∀ sys : Sys, Inv sys →
    Inv (runOps sys ops) := by
  induction ops with
  | nil => intro sys hInv; exact hInv
  | cons op rest ih =>
    intro sys hInv
    exact ih (stepOp sys op) (Inv_stepOp sys op hInv)

theorem Inv_sysInit : Inv sysInit := by
  intro i hi
  simp [sysInit] at hi

theorem atMostOne_of_Inv (sys : Sys) (hInv : Inv sys) :
    atMostOneRunning sys := by
  intro i j hi hj hri hrj
  have h1 := hInv i hi hri
  have h2 := hInv j hj hrj
  rw [h1] at h2
  exact Option.some.inj h2

theorem stepEv_nonwatcher (sys : Sys) (e : PEv) (he : e ≠ PEv.watcherFires) :
    stepEv sys e = sys := by
  cases e with
  | killCall =>
    show applyResult sys (Kill sys) = sys
    by_cases hs : GetStatus sys = true
    · cases ha : sys.active with
      | none => rw [GetStatus, ha] at hs; exact absurd hs (by simp)
      | some i =>
        rw [Kill_running sys i ha (by rw [← GetStatus_some sys i ha]; exact hs)]
        rfl
    · rw [Kill_notRunning sys (by simpa using hs)]
      rfl
  | externalKill => rfl
  | crash => rfl
  | watcherFires => exact absurd rfl he

theorem runEvs_nonwatcher (evs : List PEv) : ∀ sys : Sys,
    PEv.watcherFires ∉ evs → runEvs sys evs = sys := by
  induction evs with
  | nil => intro sys _; rfl
  | cons e rest ih =>
    intro sys hmem
    show runEvs (stepEv sys e) rest = sys
    rw [stepEv_nonwatcher sys e (fun hc => hmem (hc ▸ List.mem_cons_self e rest))]
    exact ih sys (fun hc => hmem (List.mem_cons_of_mem e hc))

theorem GetStatus_exitServer_active (sys : Sys) (i : Nat)
    (ha : sys.active = some i) : GetStatus (exitServer sys i) = false := by
  unfold exitServer
  by_cases hr : (sys.getServer i).isRunning = true
  · simp only [hr, if_pos]
    rfl
  · simp only [hr, if_neg, Bool.false_eq_true, not_false_iff]
    rw [GetStatus_some sys i ha]
    simpa using hr

theorem GetStatus_stepEv_false (sys : Sys) (e : PEv)
    (h : GetStatus sys = false) : GetStatus (stepEv sys e) = false := by
  by_cases he : e = PEv.watcherFires
  · subst he
    show GetStatus (match sys.active with
      | some i => exitServer sys i
      | none => sys) = false
    cases ha : sys.active with
    | none => simpa [ha] using h
    | some i => simp only [ha]; exact GetStatus_exitServer_active sys i ha
  · rw [stepEv_nonwatcher sys e he]
    exact h

theorem GetStatus_runEvs_false (evs : List PEv) : ∀ sys : Sys,
    GetStatus sys = false → GetStatus (runEvs sys evs) = false := by
  induction evs with
  | nil => intro sys h; exact h
  | cons e rest ih =>
    intro sys h
    exact ih (stepEv sys e) (GetStatus_stepEv_false sys e h)

theorem GetStatus_runEvs_watcher (evs : List PEv) : ∀ sys : Sys,
    PEv.watcherFires ∈ evs → GetStatus (runEvs sys evs) = false := by
  induction evs with
  | nil => intro sys hmem; exact absurd hmem (List.not_mem_nil _)
  | cons e rest ih =>
    intro sys hmem
    by_cases he : e = PEv.watcherFires
    · subst he
      show GetStatus (runEvs (stepEv sys PEv.watcherFires) rest) = false
      have hstep : GetStatus (stepEv sys PEv.watcherFires) = false := by
        show GetStatus (match sys.active with
          | some i => exitServer sys i
          | none => sys) = false
        cases ha : sys.active with
        | none => simp only [ha]; rw [GetStatus, ha]
        | some i => simp only [ha]; exact GetStatus_exitServer_active sys i ha
      exact GetStatus_runEvs_false rest _ hstep
    · show GetStatus (runEvs (stepEv sys e) rest) = false
      rw [stepEv_nonwatcher sys e he]
      have : PEv.watcherFires ∈ rest := by
        cases List.mem_cons.mp hmem with
        | inl hl => exact absurd hl.symm he
        | inr hr => exact hr
      exact ih sys this

theorem runAll_cons (c : String) (rest : List String) (sys : Sys) :
    runAll (c :: rest) sys = runAll rest (applyResult sys (RunCommand c sys)) := rfl

theorem runAll_getServer (cmds : List String) : ∀ (sys : Sys) (i : Nat),
    sys.active = some i →
    (sys.getServer i).isRunning = true →
    (sys.getServer i).stdin.length + cmds.length ≤ stdinCap →
    (runAll cmds sys).getServer i =
      { sys.getServer i with stdin := (sys.getServer i).stdin ++ cmds } ∧
    (runAll cmds sys).active = some i := by
  induction cmds with
  | nil =>
    intro sys i ha _ _
    constructor
    · show sys.getServer i = _
      simp
    · exact ha
  | cons c rest ih =>
    intro sys i ha hr hlen
    have hq : (sys.getServer i).stdin.length < stdinCap := by
      simp only [List.length_cons] at hlen
      omega
    have hilt : i < sys.servers.length := lt_of_running sys i hr
    rw [runAll_cons, RunCommand_ok sys i c ha hr hq]
    have hset : (sys.setServer i
        { sys.getServer i with stdin := (sys.getServer i).stdin ++ [c] }).getServer i =
        { sys.getServer i with stdin := (sys.getServer i).stdin ++ [c] } :=
      getServer_set_self sys i _ hilt
    have hres := ih (sys.setServer i
        { sys.getServer i with stdin := (sys.getServer i).stdin ++ [c] }) i
      (by rw [setServer_active]; exact ha)
      (by rw [hset]; exact hr)
      (by rw [hset]; simp at hlen ⊢; omega)
    constructor
    · rw [show applyResult sys (OpResult.ok (sys.setServer i
        { sys.getServer i with stdin := (sys.getServer i).stdin ++ [c] })) =
        sys.setServer i { sys.getServer i with stdin := (sys.getServer i).stdin ++ [c] }
        from rfl]
      rw [hres.1, hset]
      simp
    · rw [show applyResult sys (OpResult.ok (sys.setServer i
        { sys.getServer i with stdin := (sys.getServer i).stdin ++ [c] })) =
        sys.setServer i { sys.getServer i with stdin := (sys.getServer i).stdin ++ [c] }
        from rfl]
      exact hres.2

theorem drainN_all (q : List String) : ∀ (run : Bool) (w : String),
    drainN q.length ⟨q, run, w⟩ = ⟨[], run, w ++ joinLines q⟩ := by
  induction q with
  | nil =>
    intro run w
    show (⟨[], run, w⟩ : Server) = ⟨[], run, w ++ joinLines []⟩
    simp [joinLines]
  | cons c rest ih =>
    intro run w
    show drainN rest.length (drainStep ⟨c :: rest, run, w⟩) = _
    rw [show drainStep ⟨c :: rest, run, w⟩ = ⟨rest, run, w ++ c ++ "\n"⟩ from rfl]
    rw [ih run (w ++ c ++ "\n")]
    rw [show joinLines (c :: rest) = c ++ "\n" ++ joinLines rest from rfl]
    rw [String.append_assoc, String.append_assoc, String.append_assoc]

theorem QBound_setServer (sys : Sys) (i : Nat) (s : Server) (hQ : QBound sys)
    (hs : s.stdin.length ≤ stdinCap) : QBound (sys.setServer i s) := by
  intro j
  by_cases hij : i = j
  · subst hij
    by_cases hlt : i < sys.servers.length
    · rw [getServer_set_self sys i s hlt]
      exact hs
    · have hset : sys.servers.set i s = sys.servers :=
        List.set_eq_of_length_le (by omega)
      have heq : (sys.setServer i s).getServer i = sys.getServer i := by
        unfold Sys.setServer Sys.getServer
        rw [hset]
      rw [heq]
      exact hQ i
  · rw [getServer_set_other sys i j s hij]
    exact hQ j

theorem QBound_Start (launchOk : Bool) (sys : Sys) (hQ : QBound sys) :
    QBound (Start launchOk sys).2 := by
  by_cases hs : GetStatus sys = true
  · rw [Start_of_running launchOk sys hs]
    exact hQ
  · have hs2 : GetStatus sys = false := by simpa using hs
    have key : ∀ b : Bool,
        QBound (⟨sys.servers ++ [⟨[], b, ""⟩], some sys.servers.length⟩ : Sys) := by
      intro b j
      by_cases hlt : j < sys.servers.length
      · rw [getServer_append_lt sys.servers _ _ j hlt]
        exact hQ j
      · by_cases hj : j = sys.servers.length
        · subst hj
          rw [getServer_append_self]
          simp [stdinCap]
        · rw [getServer_of_ge _ j (by simp; omega)]
          simp [freshServer, stdinCap]
    cases launchOk with
    | true => rw [Start_ok sys hs2]; exact key true
    | false => rw [Start_fail sys hs2]; exact key false

theorem QBound_RunCommand (line : String) (sys : Sys) (hQ : QBound sys) :
    QBound (applyResult sys (RunCommand line sys)) := by
  cases ha : sys.active with
  | none =>
    rw [RunCommand_notRunning sys line (by unfold GetStatus; rw [ha])]
    exact hQ
  | some i =>
    by_cases hr : (sys.getServer i).isRunning = true
    · by_cases hq2 : (sys.getServer i).stdin.length < stdinCap
      · rw [RunCommand_ok sys i line ha hr hq2]
        refine QBound_setServer sys i _ hQ ?_
        simp only [List.length_append, List.length_singleton]
        omega
      · rw [RunCommand_blocked sys i line ha hr hq2]
        exact hQ
    · rw [RunCommand_notRunning sys line
        (by rw [GetStatus_some sys i ha]; simpa using hr)]
      exact hQ

theorem QBound_Stop (sys : Sys) (hQ : QBound sys) :
    QBound (applyResult sys (Stop sys)) := by
  cases ha : sys.active with
  | none =>
    rw [Stop_notRunning sys (by unfold GetStatus; rw [ha])]
    exact hQ
  | some i =>
    by_cases hr : (sys.getServer i).isRunning = true
    · rw [Stop_running sys i ha hr]
      exact QBound_RunCommand "stop" sys hQ
    · rw [Stop_notRunning sys
        (by rw [GetStatus_some sys i ha]; simpa using hr)]
      exact hQ

theorem QBound_Kill (sys : Sys) (hQ : QBound sys) :
    QBound (applyResult sys (Kill sys)) := by
  cases ha : sys.active with
  | none =>
    rw [Kill_notRunning sys (by unfold GetStatus; rw [ha])]
    exact hQ
  | some i =>
    by_cases hr : (sys.getServer i).isRunning = true
    · rw [Kill_running sys i ha hr]
      exact hQ
    · rw [Kill_notRunning sys
        (by rw [GetStatus_some sys i ha]; simpa using hr)]
      exact hQ

theorem QBound_exitServer (sys : Sys) (i : Nat) (hQ : QBound sys) :
    QBound (exitServer sys i) := by
  unfold exitServer
  by_cases hr : (sys.getServer i).isRunning = true
  · simp only [hr, if_pos]
    intro j
    have hget : (Sys.mk (sys.servers.set i { sys.getServer i with isRunning := false })
        none).getServer j =
        (sys.setServer i { sys.getServer i with isRunning := false }).getServer j := rfl
    rw [hget]
    exact QBound_setServer sys i { sys.getServer i with isRunning := false }
      hQ (hQ i) j
  · simp only [hr, if_neg, Bool.false_eq_true, not_false_iff]
    exact hQ

theorem QBound_drain (sys : Sys) (i : Nat) (hQ : QBound sys) :
    QBound (sys.setServer i (drainStep (sys.getServer i))) := by
  refine QBound_setServer sys i _ hQ ?_
  have hi := hQ i
  unfold drainStep
  cases hs : (sys.getServer i).stdin with
  | nil => simp [hs]
  | cons c rest =>
    rw [hs] at hi
    simp only [List.length_cons] at hi
    simp only [List.length_cons]
    omega

theorem QBound_stepOp (sys : Sys) (op : Op) (hQ : QBound sys) :
    QBound (stepOp sys op) := by
  cases op with
  | opStart launchOk => exact QBound_Start launchOk sys hQ
  | opStop => exact QBound_Stop sys hQ
  | opKill => exact QBound_Kill sys hQ
  | opRun line => exact QBound_RunCommand line sys hQ
  | opExit i => exact QBound_exitServer sys i hQ
  | opDrain i => exact QBound_drain sys i hQ

theorem QBound_runOps (ops : List Op) : ∀ sys : Sys, QBound sys →
    QBound (runOps sys ops) := by
  induction ops with
  | nil => intro sys hQ; exact hQ
  | cons op rest ih =>
    intro sys hQ
    exact ih (stepOp sys op) (QBound_stepOp sys op hQ)

theorem QBound_sysInit : QBound sysInit := by
  intro i
  rw [getServer_of_ge sysInit i (by simp [sysInit])]
  simp [freshServer, stdinCap]

end server

namespace pkg

theorem WriteAll_append (h : Hub) (l1 l2 : List String) :
    WriteAll h (l1 ++ l2) = WriteAll (WriteAll h l1) l2 := by
  unfold WriteAll
  rw [List.foldl_append]

theorem subBuf_hubInit (i : Nat) : subBuf hubInit i = [] :=
  subBuf_of_ge hubInit i (by simp [hubInit])

/-- Claim C6: for every published line, Write appends it to the history and
offers it to every currently registered subscriber without blocking (the
model function is total): a subscriber whose buffer is below capacity gets
the line appended; one whose buffer is full keeps its buffer unchanged
(the line is silently dropped for it); the subscriber set itself does not
change, so dropping for one subscriber does not affect the others or the
history append. -/
theorem C6_write_appends_and_offers (h : Hub) (msg : String) (i : Nat)
    (hi : i < h.subscribers.length) :
    (Write h msg).sessionLogs = h.sessionLogs ++ [msg] ∧
    (Write h msg).subscribers.length = h.subscribers.length ∧
    subBuf (Write h msg) i =
      (if (subBuf h i).length < chanCap then subBuf h i ++ [msg]
       else subBuf h i) := by
  refine ⟨Write_sessionLogs h msg, Write_subscribers_length h msg, ?_⟩
  rw [subBuf_Write h msg i hi]
  rfl

/-- Witness for C6 at a concrete hub with one empty subscriber. -/
theorem C6_write_appends_and_offers_witness :
    (Write ⟨["a"], [[]]⟩ "b").sessionLogs = ["a"] ++ ["b"] ∧
    (Write ⟨["a"], [[]]⟩ "b").subscribers.length =
      ([[]] : List (List String)).length ∧
    subBuf (Write ⟨["a"], [[]]⟩ "b") 0 =
      (if (subBuf ⟨["a"], [[]]⟩ 0).length < chanCap
       then subBuf ⟨["a"], [[]]⟩ 0 ++ ["b"] else subBuf ⟨["a"], [[]]⟩ 0) :=
  C6_write_appends_and_offers ⟨["a"], [[]]⟩ "b" 0 (by decide)

/-- Claim C5: a subscriber that subscribes after the lines `ls` have been
published (starting from an empty history, with arbitrary pre-existing
subscribers `subs0`) and before any further publish sees, via
GetSessionLogs, exactly `ls` in arrival order and has an empty channel;
every line of a subsequent batch `ms` (within the channel capacity, i.e.
while the subscriber keeps up) reaches its channel in order with no gap,
and the history then reads `ls ++ ms`; this holds even while a slow
subscriber with a full buffer is simultaneously dropping every line, and
such a slow subscriber stays full and unchanged. -/
theorem C5_snapshot_then_no_gap (subs0 : List (List String))
    (ls ms : List String) (hms : ms.length ≤ chanCap) :
    GetSessionLogs (Subscribe (WriteAll ⟨[], subs0⟩ ls)).1 = ls ∧
    subBuf (Subscribe (WriteAll ⟨[], subs0⟩ ls)).1
      (Subscribe (WriteAll ⟨[], subs0⟩ ls)).2 = [] ∧
    (WriteAll (Subscribe (WriteAll ⟨[], subs0⟩ ls)).1 ms).sessionLogs =
      ls ++ ms ∧
    subBuf (WriteAll (Subscribe (WriteAll ⟨[], subs0⟩ ls)).1 ms)
      (Subscribe (WriteAll ⟨[], subs0⟩ ls)).2 = ms ∧
    (∀ j, (subBuf (⟨[], subs0⟩ : Hub) j).length = chanCap →
      subBuf (WriteAll (Subscribe (WriteAll ⟨[], subs0⟩ ls)).1 ms) j =
        subBuf (⟨[], subs0⟩ : Hub) j) := by
  have hsess1 : (WriteAll ⟨[], subs0⟩ ls).sessionLogs = ls := by
    rw [WriteAll_sessionLogs]
    rfl
  have hlen1 : (WriteAll ⟨[], subs0⟩ ls).subscribers.length = subs0.length :=
    WriteAll_subscribers_length ls ⟨[], subs0⟩
  have hidx : (Subscribe (WriteAll ⟨[], subs0⟩ ls)).2 = subs0.length := hlen1
  have hlen2 : (Subscribe (WriteAll ⟨[], subs0⟩ ls)).1.subscribers.length =
      subs0.length + 1 := by
    show ((WriteAll ⟨[], subs0⟩ ls).subscribers ++ [[]]).length = subs0.length + 1
    simp [hlen1]
  have hnew : subBuf (Subscribe (WriteAll ⟨[], subs0⟩ ls)).1
      (Subscribe (WriteAll ⟨[], subs0⟩ ls)).2 = [] := by
    rw [subBuf_Subscribe, if_neg]
    rw [hidx, hlen1]
    omega
  refine ⟨hsess1, hnew, ?_, ?_, ?_⟩
  · rw [WriteAll_sessionLogs]
    show (WriteAll ⟨[], subs0⟩ ls).sessionLogs ++ ms = ls ++ ms
    rw [hsess1]
  · rw [subBuf_WriteAll ms _ _ (by rw [hidx, hlen2]; omega)
      (by rw [hnew]; simpa using hms), hnew]
    rfl
  · intro j hj
    have hjlt : j < subs0.length := by
      by_contra hc
      rw [subBuf_of_ge _ j (by simpa using hc)] at hj
      simp [chanCap] at hj
    have ha : subBuf (WriteAll ⟨[], subs0⟩ ls) j = subBuf (⟨[], subs0⟩ : Hub) j :=
      subBuf_WriteAll_full ls ⟨[], subs0⟩ j hjlt (by rw [hj])
    have hb : subBuf (Subscribe (WriteAll ⟨[], subs0⟩ ls)).1 j =
        subBuf (WriteAll ⟨[], subs0⟩ ls) j := by
      rw [subBuf_Subscribe, if_pos]
      rw [hlen1]
      exact hjlt
    have hc2 : subBuf (WriteAll (Subscribe (WriteAll ⟨[], subs0⟩ ls)).1 ms) j =
        subBuf (Subscribe (WriteAll ⟨[], subs0⟩ ls)).1 j := by
      apply subBuf_WriteAll_full ms _ j
      · rw [hlen2]; omega
      · rw [hb, ha, hj]
    rw [hc2, hb, ha]

/-- Witness for C5: one full slow subscriber, two history lines, then two
lines published after subscription. -/
theorem C5_snapshot_then_no_gap_witness :
    GetSessionLogs (Subscribe (WriteAll ⟨[], [List.replicate 100 "s"]⟩
      ["l1", "l2"])).1 = ["l1", "l2"] ∧
    subBuf (Subscribe (WriteAll ⟨[], [List.replicate 100 "s"]⟩ ["l1", "l2"])).1
      (Subscribe (WriteAll ⟨[], [List.replicate 100 "s"]⟩ ["l1", "l2"])).2 = [] ∧
    (WriteAll (Subscribe (WriteAll ⟨[], [List.replicate 100 "s"]⟩
      ["l1", "l2"])).1 ["m1", "m2"]).sessionLogs = ["l1", "l2"] ++ ["m1", "m2"] ∧
    subBuf (WriteAll (Subscribe (WriteAll ⟨[], [List.replicate 100 "s"]⟩
      ["l1", "l2"])).1 ["m1", "m2"])
      (Subscribe (WriteAll ⟨[], [List.replicate 100 "s"]⟩ ["l1", "l2"])).2 =
      ["m1", "m2"] ∧
    (∀ j, (subBuf (⟨[], [List.replicate 100 "s"]⟩ : Hub) j).length = chanCap →
      subBuf (WriteAll (Subscribe (WriteAll ⟨[], [List.replicate 100 "s"]⟩
        ["l1", "l2"])).1 ["m1", "m2"]) j =
        subBuf (⟨[], [List.replicate 100 "s"]⟩ : Hub) j) :=
  C5_snapshot_then_no_gap [List.replicate 100 "s"] ["l1", "l2"] ["m1", "m2"]
    (by simp [chanCap])

/-- Claim C3 counterexample: a subscriber whose consumer never receives
(the disconnected-consumer behaviour: its channel stays full and every
delivery attempt is dropped) is still registered after arbitrarily many
delivery attempts.  Concretely: after one Subscribe and 150 published
lines, 50 deliveries have been dropped (the buffer holds only the 100-line
capacity) yet the subscriber set still has the entry — nothing in the code
ever removes a subscriber. -/
theorem C3_counterexample :
    (WriteAll (Subscribe hubInit).1 (List.replicate 150 "line")).subscribers.length
      = 1 ∧
    (subBuf (WriteAll (Subscribe hubInit).1 (List.replicate 150 "line")) 0).length
      = chanCap := by
  constructor
  · rw [WriteAll_subscribers_length]
    rfl
  · have hsplit : List.replicate 150 "line" =
        List.replicate 100 "line" ++ List.replicate 50 "line" := by
      rw [← List.replicate_add]
    have h1 : subBuf (WriteAll (Subscribe hubInit).1 (List.replicate 100 "line")) 0 =
        List.replicate 100 "line" := by
      have := subBuf_WriteAll (List.replicate 100 "line") (Subscribe hubInit).1 0
        (by simp [Subscribe, hubInit])
        (by rw [show subBuf (Subscribe hubInit).1 0 = [] from rfl]; simp [chanCap])
      rw [show subBuf (Subscribe hubInit).1 0 = [] from rfl] at this
      simpa using this
    rw [hsplit, WriteAll_append]
    rw [subBuf_WriteAll_full (List.replicate 50 "line") _ 0
      (by rw [WriteAll_subscribers_length]; simp [Subscribe, hubInit])
      (by rw [h1]; simp [chanCap])]
    rw [h1]
    simp [chanCap]

/-- Claim C3 amended: the subscriber set is append-only — no operation of
the log hub ever removes an entry.  After any sequence of Subscribe and
Write operations the subscriber count equals the initial count plus the
number of Subscribe calls; a subscriber whose consumer has disconnected
simply keeps its entry forever, with writes beyond its full buffer
silently dropped. -/
theorem C3_subscribers_never_removed (h : Hub) (ops : List HubOp) :
    (runHubOps h ops).subscribers.length =
      h.subscribers.length +
        (ops.filter (fun op => op = HubOp.sub)).length :=
  runHubOps_subscribers_length ops h

end pkg

namespace server

/-- Claim C1 counterexample: starting from the empty registry, a Start
whose launch fails (pipe creation or spawn failure) returns the launch
error, but the registry is NOT left empty: the active reference still
points at the Server instance that Start registered before attempting
the launch, so it does not equal its pre-call state. -/
theorem C1_counterexample :
    (Start false sysInit).1 = Except.error SErr.launchFailure ∧
    sysInit.active = none ∧
    (Start false sysInit).2.active = some 0 :=
  ⟨rfl, rfl, rfl⟩

/-- Claim C1 amended: when Start hits a launch failure it returns the
launch error but does not unregister synchronously: the registry's active
reference still points at the just-registered failed instance.  That
instance reports a false status, so the registry does not block later
calls: a subsequent Start still succeeds. -/
theorem C1_start_failure_keeps_registration (sys : Sys)
    (h : GetStatus sys = false) :
    (Start false sys).1 = Except.error SErr.launchFailure ∧
    (Start false sys).2.active = some sys.servers.length ∧
    GetStatus (Start false sys).2 = false ∧
    (Start true (Start false sys).2).1 = Except.ok () := by
  have hfail := Start_fail sys h
  have hstat : GetStatus (Start false sys).2 = false := by
    rw [hfail]
    show GetStatus ⟨sys.servers ++ [⟨[], false, ""⟩], some sys.servers.length⟩ = false
    rw [GetStatus_some _ sys.servers.length rfl, getServer_append_self]
  refine ⟨by rw [hfail], by rw [hfail], hstat, ?_⟩
  rw [Start_ok _ hstat]

/-- Witness for the amended C1 at the initial empty registry. -/
theorem C1_start_failure_keeps_registration_witness :
    (Start false sysInit).1 = Except.error SErr.launchFailure ∧
    (Start false sysInit).2.active = some 0 ∧
    GetStatus (Start false sysInit).2 = false ∧
    (Start true (Start false sysInit).2).1 = Except.ok () :=
  C1_start_failure_keeps_registration sysInit rfl

/-- Claim C2: a Start call made while the registry holds an active
instance whose status is running fails with AlreadyRunning and changes
nothing; a burst of N Start attempts (serialized by the global lock, as
in the code) from a state with no running instance produces exactly one
winner and N−1 AlreadyRunning failures, with the registry pointing at
the winner; and in every state reachable by any sequence of operations
from the initial state, at most one Server instance is running
process-wide. -/
theorem C2_singleton_start :
    (∀ (sys : Sys) (launchOk : Bool), GetStatus sys = true →
      Start launchOk sys = (Except.error SErr.alreadyRunning, sys)) ∧
    (∀ (n : Nat) (sys : Sys), GetStatus sys = false →
      startN (n + 1) sys =
        (Except.ok () :: List.replicate n (Except.error SErr.alreadyRunning),
          ⟨sys.servers ++ [⟨[], true, ""⟩], some sys.servers.length⟩)) ∧
    (∀ ops : List Op, atMostOneRunning (runOps sysInit ops)) :=
  ⟨fun sys launchOk h => Start_of_running launchOk sys h,
   fun n sys h => startN_wins n sys h,
   fun ops => atMostOne_of_Inv _ (Inv_runOps ops sysInit Inv_sysInit)⟩

/-- Witness for C2: a rejected second Start on a running system, and a
burst of three Start attempts from the empty registry. -/
theorem C2_singleton_start_witness :
    Start true sysRun1 = (Except.error SErr.alreadyRunning, sysRun1) ∧
    startN 3 sysInit =
      (Except.ok () :: List.replicate 2 (Except.error SErr.alreadyRunning),
        ⟨sysInit.servers ++ [⟨[], true, ""⟩], some 0⟩) :=
  ⟨C2_singleton_start.1 sysRun1 true rfl, C2_singleton_start.2.1 2 sysInit rfl⟩

/-- Claim C4 counterexample: with a running server whose 100-slot command
queue is full, RunCommand does not return — the channel send blocks the
caller — contradicting the claim that the operations return without
blocking in every state including a full command queue. -/
theorem C4_counterexample : RunCommand "say hi" sysFull = OpResult.blocked :=
  rfl

/-- Claim C4 amended: Stop, Kill and RunCommand each fail with NotRunning
whenever no process is active (registry empty or its instance not
running).  Kill always returns without blocking.  Stop and RunCommand
return without blocking iff the command queue holds fewer than 100
pending lines; when the queue is full, the enqueue blocks the caller. -/
theorem C4_notrunning_and_blocking :
    (∀ sys : Sys, GetStatus sys = false →
      Stop sys = OpResult.err SErr.notRunning ∧
      Kill sys = OpResult.err SErr.notRunning ∧
      (∀ line, RunCommand line sys = OpResult.err SErr.notRunning)) ∧
    (∀ (sys : Sys) (i : Nat), sys.active = some i →
      (sys.getServer i).isRunning = true →
      Kill sys = OpResult.ok sys ∧
      (∀ line, (sys.getServer i).stdin.length < stdinCap →
        RunCommand line sys = OpResult.ok (sys.setServer i
          { sys.getServer i with
            stdin := (sys.getServer i).stdin ++ [line] })) ∧
      (∀ line, ¬ (sys.getServer i).stdin.length < stdinCap →
        RunCommand line sys = OpResult.blocked ∧
        Stop sys = OpResult.blocked)) := by
  constructor
  · intro sys h
    exact ⟨Stop_notRunning sys h, Kill_notRunning sys h,
      fun line => RunCommand_notRunning sys line h⟩
  · intro sys i ha hr
    refine ⟨Kill_running sys i ha hr,
      fun line hq => RunCommand_ok sys i line ha hr hq,
      fun line hq => ⟨RunCommand_blocked sys i line ha hr hq, ?_⟩⟩
    rw [Stop_running sys i ha hr]
    exact RunCommand_blocked sys i "stop" ha hr hq

/-- Witness for the amended C4: NotRunning on the empty registry,
non-blocking Kill and enqueue on a running server with a free queue, and
blocking RunCommand/Stop on a full queue. -/
theorem C4_notrunning_and_blocking_witness :
    Stop sysInit = OpResult.err SErr.notRunning ∧
    Kill sysFull = OpResult.ok sysFull ∧
    RunCommand "a" sysRun1 = OpResult.ok (sysRun1.setServer 0
      { sysRun1.getServer 0 with stdin := (sysRun1.getServer 0).stdin ++ ["a"] }) ∧
    RunCommand "b" sysFull = OpResult.blocked ∧
    Stop sysFull = OpResult.blocked :=
  ⟨(C4_notrunning_and_blocking.1 sysInit rfl).1,
   (C4_notrunning_and_blocking.2 sysFull 0 rfl rfl).1,
   (C4_notrunning_and_blocking.2 sysRun1 0 rfl rfl).2.1 "a" (by decide),
   ((C4_notrunning_and_blocking.2 sysFull 0 rfl rfl).2.2 "b" (by decide)).1,
   ((C4_notrunning_and_blocking.2 sysFull 0 rfl rfl).2.2 "b" (by decide)).2⟩

/-- Claim C7 counterexample: on a running server whose command queue is
full, Stop does not return immediately — the enqueue of the "stop" line
blocks the caller. -/
theorem C7_counterexample : Stop sysFull = OpResult.blocked :=
  rfl

/-- Claim C7 amended: Stop fails with NotRunning if the state is not
Running; otherwise, provided the command queue holds fewer than 100
pending lines, it enqueues exactly the literal console line "stop" at
the back of the queue and returns at once — the server stays running
(no forcible termination, no waiting for exit) and nothing else of the
state changes; if the queue is full, the enqueue blocks (see C4). -/
theorem C7_stop_enqueues_literal_stop :
    (∀ sys : Sys, GetStatus sys = false →
      Stop sys = OpResult.err SErr.notRunning) ∧
    (∀ (sys : Sys) (i : Nat), sys.active = some i →
      (sys.getServer i).isRunning = true →
      (sys.getServer i).stdin.length < stdinCap →
      Stop sys = OpResult.ok (sys.setServer i
        { sys.getServer i with
          stdin := (sys.getServer i).stdin ++ ["stop"] }) ∧
      GetStatus (sys.setServer i
        { sys.getServer i with
          stdin := (sys.getServer i).stdin ++ ["stop"] }) = true) := by
  constructor
  · exact fun sys h => Stop_notRunning sys h
  · intro sys i ha hr hq
    constructor
    · rw [Stop_running sys i ha hr]
      exact RunCommand_ok sys i "stop" ha hr hq
    · rw [GetStatus_some _ i (by rw [setServer_active]; exact ha)]
      rw [getServer_set_self sys i _ (lt_of_running sys i hr)]
      exact hr

/-- Witness for the amended C7 on a running server with a free queue. -/
theorem C7_stop_enqueues_literal_stop_witness :
    Stop sysInit = OpResult.err SErr.notRunning ∧
    (Stop sysRun1 = OpResult.ok (sysRun1.setServer 0
      { sysRun1.getServer 0 with
        stdin := (sysRun1.getServer 0).stdin ++ ["stop"] }) ∧
     GetStatus (sysRun1.setServer 0
      { sysRun1.getServer 0 with
        stdin := (sysRun1.getServer 0).stdin ++ ["stop"] }) = true) :=
  ⟨C7_stop_enqueues_literal_stop.1 sysInit rfl,
   C7_stop_enqueues_literal_stop.2 sysRun1 0 rfl rfl (by decide)⟩

/-- Claim C8: lines enqueued while the process is running (within the
queue capacity, so that every enqueue succeeds) sit in the queue in
exactly the enqueue order, and the stdin writer then writes to the
child's stdin exactly those lines in that order, each followed by a
single newline — never reordered, never duplicated. -/
theorem C8_fifo_order (sys : Sys) (cmds : List String)
    (h : GetStatus sys = false) (hlen : cmds.length ≤ stdinCap) :
    ((runAll cmds (Start true sys).2).getServer sys.servers.length).stdin
      = cmds ∧
    drainN cmds.length
      ((runAll cmds (Start true sys).2).getServer sys.servers.length) =
      ⟨[], true, joinLines cmds⟩ := by
  have hget : (Start true sys).2.getServer sys.servers.length =
      ⟨[], true, ""⟩ := by
    rw [Start_ok sys h]
    exact getServer_append_self sys.servers _ _
  have hact : (Start true sys).2.active = some sys.servers.length := by
    rw [Start_ok sys h]
  have hrun := runAll_getServer cmds (Start true sys).2 sys.servers.length
    hact (by rw [hget]) (by rw [hget]; simpa using hlen)
  have hq : (runAll cmds (Start true sys).2).getServer sys.servers.length =
      ⟨cmds, true, ""⟩ := by
    rw [hrun.1, hget]
    simp
  refine ⟨by rw [hq], ?_⟩
  rw [hq, drainN_all cmds true ""]
  have : ("" : String) ++ joinLines cmds = joinLines cmds := by simp
  rw [this]

/-- Witness for C8: the enqueue order a, b, c reaches stdin as the byte
stream a newline b newline c newline. -/
theorem C8_fifo_order_witness :
    ((runAll ["a", "b", "c"] (Start true sysInit).2).getServer 0).stdin
      = ["a", "b", "c"] ∧
    drainN 3 ((runAll ["a", "b", "c"] (Start true sysInit).2).getServer 0) =
      ⟨[], true, "a\nb\nc\n"⟩ :=
  C8_fifo_order sysInit ["a", "b", "c"] rfl (by decide)

/-- Claim C9: after a successful Start the status is true, stays true at
every point of every event sequence in which the exit watcher has not
fired — in particular Kill calls, external kills and crashes change no
supervisor state at all — and is false at every point after any sequence
in which the watcher has fired, whatever the cause of termination was
and whatever happens afterwards (the flip happens once, at the watcher). -/
theorem C9_status_tracks_exit_watcher (sys : Sys) (h : GetStatus sys = false) :
    GetStatus (Start true sys).2 = true ∧
    (∀ evs : List PEv, PEv.watcherFires ∉ evs →
      runEvs (Start true sys).2 evs = (Start true sys).2 ∧
      GetStatus (runEvs (Start true sys).2 evs) = true) ∧
    (∀ evs : List PEv, PEv.watcherFires ∈ evs →
      GetStatus (runEvs (Start true sys).2 evs) = false) := by
  refine ⟨GetStatus_startOk sys h, ?_, ?_⟩
  · intro evs hmem
    have he := runEvs_nonwatcher evs (Start true sys).2 hmem
    exact ⟨he, by rw [he]; exact GetStatus_startOk sys h⟩
  · intro evs hmem
    exact GetStatus_runEvs_watcher evs (Start true sys).2 hmem

/-- Witness for C9: status survives a Kill call and an external kill,
and is false once the watcher fires, even with later events. -/
theorem C9_status_tracks_exit_watcher_witness :
    GetStatus (Start true sysInit).2 = true ∧
    GetStatus (runEvs (Start true sysInit).2
      [PEv.killCall, PEv.externalKill]) = true ∧
    GetStatus (runEvs (Start true sysInit).2
      [PEv.killCall, PEv.watcherFires, PEv.crash]) = false :=
  ⟨(C9_status_tracks_exit_watcher sysInit rfl).1,
   ((C9_status_tracks_exit_watcher sysInit rfl).2.1
     [PEv.killCall, PEv.externalKill] (by decide)).2,
   (C9_status_tracks_exit_watcher sysInit rfl).2.2
     [PEv.killCall, PEv.watcherFires, PEv.crash] (by decide)⟩

/-- Claim C10: both capacities are exactly 100.  On a running server,
RunCommand completes without blocking iff fewer than 100 lines are
pending, and blocks iff the queue already holds 100 (queues never exceed
100 in any reachable state).  A subscriber channel accepts a published
line iff its buffer holds fewer than 100 undelivered lines and drops it
iff it already holds exactly 100 (buffers never exceed 100 in any
reachable state). -/
theorem C10_capacities :
    stdinCap = 100 ∧ pkg.chanCap = 100 ∧
    (∀ (sys : Sys) (i : Nat) (line : String), sys.active = some i →
      (sys.getServer i).isRunning = true →
      ((∃ sys2, RunCommand line sys = OpResult.ok sys2) ↔
        (sys.getServer i).stdin.length < 100)) ∧
    (∀ (sys : Sys) (i : Nat) (line : String), sys.active = some i →
      (sys.getServer i).isRunning = true →
      (RunCommand line sys = OpResult.blocked ↔
        ¬ (sys.getServer i).stdin.length < 100)) ∧
    (∀ (ops : List Op) (i : Nat),
      ((runOps sysInit ops).getServer i).stdin.length ≤ 100) ∧
    (∀ (buf : List String) (msg : String), buf.length ≤ 100 →
      (pkg.trySend buf msg = buf ++ [msg] ↔ buf.length < 100)) ∧
    (∀ (buf : List String) (msg : String), buf.length ≤ 100 →
      (pkg.trySend buf msg = buf ↔ buf.length = 100)) ∧
    (∀ (hops : List pkg.HubOp) (i : Nat),
      (pkg.subBuf (pkg.runHubOps pkg.hubInit hops) i).length ≤ 100) := by
  refine ⟨rfl, rfl, ?_, ?_, ?_, ?_, ?_, ?_⟩
  · intro sys i line ha hr
    constructor
    · rintro ⟨sys2, hok⟩
      by_contra hq
      rw [RunCommand_blocked sys i line ha hr hq] at hok
      exact absurd hok (by simp)
    · intro hq
      exact ⟨_, RunCommand_ok sys i line ha hr hq⟩
  · intro sys i line ha hr
    constructor
    · intro hb hq
      rw [RunCommand_ok sys i line ha hr hq] at hb
      exact absurd hb (by simp)
    · intro hq
      exact RunCommand_blocked sys i line ha hr hq
  · intro ops i
    exact QBound_runOps ops sysInit QBound_sysInit i
  · intro buf msg hb
    by_cases hlt : buf.length < 100
    · simp [pkg.trySend, pkg.chanCap, hlt]
    · constructor
      · intro heq
        exfalso
        have hts : pkg.trySend buf msg = buf := by
          simp [pkg.trySend, pkg.chanCap, hlt]
        rw [hts] at heq
        have hl := congrArg List.length heq
        simp at hl
      · intro h2
        exact absurd h2 hlt
  · intro buf msg hb
    by_cases hlt : buf.length < 100
    · constructor
      · intro heq
        exfalso
        have hts : pkg.trySend buf msg = buf ++ [msg] := by
          simp [pkg.trySend, pkg.chanCap, hlt]
        rw [hts] at heq
        have hl := congrArg List.length heq
        simp at hl
      · intro h2
        omega
    · constructor
      · intro _
        omega
      · intro _
        simp [pkg.trySend, pkg.chanCap, hlt]
  · intro hops i
    exact pkg.subBuf_length_le hops pkg.hubInit
      (fun j => by rw [pkg.subBuf_hubInit]; simp [pkg.chanCap]) i

/-- Witness for C10 at concrete states: the empty and the full queue and
buffer. -/
theorem C10_capacities_witness :
    ((∃ sys2, RunCommand "a" sysRun1 = OpResult.ok sys2) ↔
      (sysRun1.getServer 0).stdin.length < 100) ∧
    (RunCommand "a" sysFull = OpResult.blocked ↔
      ¬ (sysFull.getServer 0).stdin.length < 100) ∧
    (pkg.trySend [] "m" = [] ++ ["m"] ↔ ([] : List String).length < 100) ∧
    (pkg.trySend (List.replicate 100 "m") "m" = List.replicate 100 "m" ↔
      (List.replicate 100 "m").length = 100) :=
  ⟨C10_capacities.2.2.1 sysRun1 0 "a" rfl rfl,
   C10_capacities.2.2.2.1 sysFull 0 "a" rfl rfl,
   C10_capacities.2.2.2.2.2.1 [] "m" (by decide),
   C10_capacities.2.2.2.2.2.2.1 (List.replicate 100 "m") "m" (by simp)⟩

end server

end MiniMC
